import Mathlib

/-!
# Shallow embedding of `PiWAVPlayer.py`

This file models the single class `PiWAVPlayer` of the repository in Lean 4
and settles the specification claims about it.

Modelling conventions:

* A WAV file is modelled as its list of frames.  The player only ships
  16-bit PCM data; we instantiate a frame with one signed 16-bit sample
  (`ℤ`, mono 16-bit), which is what the spec's scenarios use and what the
  callback's `np.frombuffer(..., dtype=np.int16)` reinterpretation sees.
  The frame-read and cursor logic (lines 85–95 of the source) never
  inspects frame contents, so nothing depends on this instantiation.
* `wave.Wave_read` is modelled by `Wave_read`: the frame list, the wave
  module's internal read position (`pos`), and an identifier for the open
  OS file handle (`handle`), fresh for each successful `wave.open`.
  `readframes n` returns the next `n` frames (fewer at end of file) and
  advances `pos`; `rewind` resets `pos` to 0; `getnframes` is the length.
* The Python float `self._volume` is modelled as an exact rational (`ℚ`).
  `np.int16 * float` promotes to float; `.astype(np.int16)` is a C-style
  cast: truncation toward zero, with modular wraparound on overflow.
* `self._filestream is None` becomes an `Option`; the filesystem is an
  oracle `fs : String → Option (List ℤ)` saying which paths `wave.open`
  can open and with which frames (`none` = `FileNotFoundError`/`wave.Error`).
* Logger calls and resource open/close operations are recorded as a list
  of `Event`s returned by each operation (what would reach an attached
  logger; absence of a logger only suppresses output, it changes no state).
-/

namespace PiWAV

/-- PortAudio / pyaudio stream-callback flag `paContinue`. -/
def paContinue : ℤ := 0

/-- PortAudio / pyaudio stream-callback flag `paComplete` (end of stream). -/
def paComplete : ℤ := 1

/-- PortAudio error constant `paCanNotReadFromACallbackStream`. -/
def paCanNotReadFromACallbackStream : ℤ := -9977

/-- Model of `wave.Wave_read`: an open WAV file. `pos` is the module's
internal sequential read position in frames; `handle` identifies the
underlying OS file handle. -/
structure Wave_read where
  handle : ℕ
  frames : List ℤ
  pos : ℕ
  deriving Repr, DecidableEq

namespace Wave_read

/-- `Wave_read.getnframes()`: total number of frames in the file. -/
def getnframes (w : Wave_read) : ℕ := w.frames.length

/-- `Wave_read.readframes(n)`: read the next `n` frames starting at the
current read position (fewer if end of file is reached first) and advance
the position by the number of frames actually read. -/
def readframes (w : Wave_read) (n : ℕ) : List ℤ × Wave_read :=
  ((w.frames.drop w.pos).take n, { w with pos := min (w.pos + n) w.frames.length })

/-- `Wave_read.rewind()`: reset the read position to the start of the file. -/
def rewind (w : Wave_read) : Wave_read := { w with pos := 0 }

end Wave_read

/-- Events observable from one operation: messages that would reach an
attached logger, and resource lifecycle events (file/stream open/close). -/
inductive Event where
  | logErrorLoad
  | logErrorNotLoaded
  | logErrorCorrupted
  | logWarnNothingPlaying
  | logWarnNothingLoaded
  | logWarnVolumeRange
  | logInfoStarted
  | logInfoStopped
  | openedFile (h : ℕ)
  | closedFile (h : ℕ)
  | openedStream (h : ℕ)
  | closedStream (h : ℕ)
  deriving Repr, DecidableEq

/-- Is the event a `logger.warning` call? -/
def Event.isWarning : Event → Bool
  | .logWarnNothingPlaying => true
  | .logWarnNothingLoaded => true
  | .logWarnVolumeRange => true
  | _ => false

/-- The mutable state of a `PiWAVPlayer` instance: `_audiostream` (the id
of the open output stream, if any), `_filestream`, `_filename`, `_is_loop`,
`_volume`, `_position`, plus a fresh-id supply for opened resources. -/
structure Player where
  audiostream : Option ℕ
  filestream : Option Wave_read
  filename : String
  is_loop : Bool
  volume : ℚ
  position : ℕ
  nextHandle : ℕ
  deriving Repr, DecidableEq

/-- `PiWAVPlayer.__init__`: no stream, no file, empty filename, looping
off, volume 1, position 0. -/
def init : Player :=
  { audiostream := none, filestream := none, filename := "", is_loop := false
    volume := 1, position := 0, nextHandle := 0 }

/-- `PiWAVPlayer.load(filename)`: try `wave.open(filename, 'rb')`.  On
success the new `Wave_read` (with a fresh handle, read position 0) replaces
`self._filestream` — the previous stream, if any, is NOT closed — and the
filename is remembered; returns `True`.  On `FileNotFoundError`/`wave.Error`
the state is unchanged, an error is logged, and `False` is returned.
The player's `_position` field is NOT reset. -/
def load (fs : String → Option (List ℤ)) (p : Player) (filename : String) :
    Bool × Player × List Event :=
  match fs filename with
  | some frames =>
      (true,
        { p with
            filestream := some { handle := p.nextHandle, frames := frames, pos := 0 }
            filename := filename
            nextHandle := p.nextHandle + 1 },
        [Event.openedFile p.nextHandle])
  | none => (false, p, [Event.logErrorLoad])

/-- Lines 85–95 of `PiWAVPlayer.audio_stream_callback`: the frame-read and
cursor-update step.  Inputs: the open file stream, the player's
`_position`, the requested `frame_count`, and `_is_loop`.  Output: the raw
frame data read, the file stream afterwards, and the new `_position`. -/
def readStep (w : Wave_read) (position frame_count : ℕ) (is_loop : Bool) :
    List ℤ × Wave_read × ℕ :=
  let start_pos := position
  let end_pos := start_pos + frame_count
  if w.getnframes < end_pos ∧ is_loop = true then
    let r1 := w.readframes frame_count
    let remaining := end_pos - w.getnframes
    let w2 := r1.2.rewind
    let r2 := w2.readframes remaining
    (r1.1 ++ r2.1, r2.2, remaining)
  else
    let r1 := w.readframes frame_count
    (r1.1, r1.2, position + frame_count)

/-- Truncation of a rational toward zero: the rounding performed by
numpy's `astype` when casting a float to an integer dtype
(`Int.tdiv` is integer division truncating toward zero). -/
def truncQ (q : ℚ) : ℤ := q.num.tdiv q.den

/-- Modular wraparound of an integer into the signed 16-bit range, the
overflow behaviour of a numpy cast to `np.int16`. -/
def wrap16 (x : ℤ) : ℤ := (x + 32768) % 65536 - 32768

/-- Lines 96–97 of the callback, per sample: `np.int16` sample times the
float volume, cast back with `.astype(np.int16)` (truncation toward zero,
modular wraparound on overflow). -/
def scaleSample (volume : ℚ) (s : ℤ) : ℤ := wrap16 (truncQ (volume * s))

/-- Lines 96–97 of the callback on a whole buffer of 16-bit samples. -/
def scaleBuffer (volume : ℚ) (buf : List ℤ) : List ℤ := buf.map (scaleSample volume)

/-- `PiWAVPlayer.audio_stream_callback(in_data, frame_count, time_info,
status)`: if a file is loaded, read the next frames (split and wrapped when
looping past end of file), scale by the volume, and return the buffer with
`paContinue`; otherwise return no data with
`paCanNotReadFromACallbackStream`. -/
def audio_stream_callback (p : Player) (frame_count : ℕ) :
    (Option (List ℤ) × ℤ) × Player :=
  match p.filestream with
  | some w =>
      let r := readStep w p.position frame_count p.is_loop
      ((some (scaleBuffer p.volume r.1), paContinue),
        { p with filestream := some r.2.1, position := r.2.2 })
  | none => ((none, paCanNotReadFromACallbackStream), p)

/-- `PiWAVPlayer.stop(req_type)`: stop and close the output stream if one
is open, else (unless `req_type` is `'standart'` or `'terminate'`) warn;
close the file stream and clear the filename if a file is open, else
(same exception) warn; finally log `'Playback is stopped'` unless
`req_type` is `'terminate'`. -/
def stop (p : Player) (req_type : String) : Player × List Event :=
  let s1 : Player × List Event :=
    match p.audiostream with
    | some h => ({ p with audiostream := none }, [Event.closedStream h])
    | none =>
        if req_type = "standart" ∨ req_type = "terminate" then (p, [])
        else (p, [Event.logWarnNothingPlaying])
  let s2 : Player × List Event :=
    match s1.1.filestream with
    | some w => ({ s1.1 with filestream := none, filename := "" }, [Event.closedFile w.handle])
    | none =>
        if req_type = "standart" ∨ req_type = "terminate" then (s1.1, [])
        else (s1.1, [Event.logWarnNothingLoaded])
  let e3 : List Event := if req_type = "terminate" then [] else [Event.logInfoStopped]
  (s2.1, s1.2 ++ s2.2 ++ e3)

/-- `PiWAVPlayer.set_volume(volume)`: accept `0 <= volume <= 1`, storing
and returning it; otherwise warn and return `-1`, changing nothing. -/
def set_volume (p : Player) (volume : ℚ) : ℚ × Player × List Event :=
  if 0 ≤ volume ∧ volume ≤ 1 then (volume, { p with volume := volume }, [])
  else (-1, p, [Event.logWarnVolumeRange])

/-- `PiWAVPlayer.get_volume()`. -/
def get_volume (p : Player) : ℚ := p.volume

/-- `PiWAVPlayer.set_loop_mode(is_loop)`. -/
def set_loop_mode (p : Player) (is_loop : Bool) : Bool × Player :=
  (is_loop, { p with is_loop := is_loop })

/-- `PiWAVPlayer.get_loop_mode()`. -/
def get_loop_mode (p : Player) : Bool := p.is_loop

/-- The body of `play` once a file stream is guaranteed open: open the
output stream (`self._p.open(...)` with the callback registered), log the
start, let the audio subsystem invoke the callback some number of times
with the frame counts in `sched` (chosen by the subsystem, until the
stream goes inactive or the wait loop is interrupted), then perform
`self.stop(req_type='standart')`. -/
def playLoop (sched : List ℕ) (p : Player) : Player × List Event :=
  let h := p.nextHandle
  let p1 : Player := { p with audiostream := some h, nextHandle := h + 1 }
  let p2 := sched.foldl (fun q n => (audio_stream_callback q n).2) p1
  let s := stop p2 "standart"
  (s.1, [Event.openedStream h, Event.logInfoStarted] ++ s.2)

/-- `PiWAVPlayer.play()`: if no file stream is open, either fail (empty
remembered filename) or implicitly re-`load` the remembered filename,
failing if that load fails; then run the playback loop and stop with
reason `'standart'`.  `sched` abstracts the audio subsystem's sequence of
callback invocations (their `frame_count`s). -/
def play (fs : String → Option (List ℤ)) (sched : List ℕ) (p : Player) :
    Player × List Event :=
  match p.filestream with
  | some _ => playLoop sched p
  | none =>
      if p.filename = "" then (p, [Event.logErrorNotLoaded])
      else
        let r := load fs p p.filename
        if r.1 then
          let s := playLoop sched r.2.1
          (s.1, r.2.2 ++ s.2)
        else (r.2.1, r.2.2 ++ [Event.logErrorCorrupted])

/-! ## Auxiliary definitions used by the theorems -/

/-- `k` consecutive invocations of the stream callback, each requesting
`n` frames (as the audio subsystem does while the stream is active). -/
def iterCallback (p : Player) (n : ℕ) : ℕ → Player
  | 0 => p
  | k + 1 => (audio_stream_callback (iterCallback p n k) n).2

/-- The `_position` update performed by one callback read with looping on,
as a function of the file length only (read off from `readStep`). -/
def cursorStep (total n p : ℕ) : ℕ := if total < p + n then p + n - total else p + n

/-- The `_position` after `k` looped callback reads of `n` frames each
starting from position 0. -/
def cursorIter (total n : ℕ) : ℕ → ℕ
  | 0 => 0
  | k + 1 => cursorStep total n (cursorIter total n k)

/-- A concrete filesystem for the concrete executions below: one valid
10-frame file `a.wav` and one valid 10-frame file `b.wav`. -/
def exFS : String → Option (List ℤ) := fun s =>
  if s = "a.wav" ∨ s = "b.wav" then some [11, 12, 13, 14, 15, 16, 17, 18, 19, 20] else none

/-- The player right after `load('a.wav')` succeeds on a fresh instance. -/
def exLoaded : Player := (load exFS init "a.wav").2.1

/-- The same player after `set_loop_mode(True)`. -/
def exLoadedLoop : Player := (set_loop_mode exLoaded true).2

/-- A 4-frame file opened and already read up to frame 3. -/
def exWave : Wave_read := { handle := 0, frames := [1, 2, 3, 4], pos := 3 }

/-- A player mid-playback of `exWave` with looping on, cursor at 3. -/
def exWrap : Player :=
  { audiostream := none, filestream := some exWave, filename := "w.wav"
    is_loop := true, volume := 1, position := 3, nextHandle := 1 }

/-- One invocation of a public method of the player (or of the callback by
the audio subsystem) over the filesystem `fs`. -/
inductive Step (fs : String → Option (List ℤ)) : Player → Player → Prop where
  | load (p : Player) (name : String) : Step fs p (load fs p name).2.1
  | play (p : Player) (sched : List ℕ) : Step fs p (play fs sched p).1
  | stop (p : Player) (req : String) : Step fs p (stop p req).1
  | set_volume (p : Player) (v : ℚ) : Step fs p (set_volume p v).2.1
  | set_loop_mode (p : Player) (b : Bool) : Step fs p (set_loop_mode p b).2
  | callback (p : Player) (n : ℕ) : Step fs p (audio_stream_callback p n).2

/-- States reachable from a freshly constructed player through any
sequence of public operations and callback invocations. -/
inductive Reachable (fs : String → Option (List ℤ)) : Player → Prop where
  | init : Reachable fs init
  | step {p q : Player} : Reachable fs p → Step fs p q → Reachable fs q

/-- The open-file/filename consistency invariant of claim C10. -/
def fileInv (p : Player) : Prop := p.filestream = none ↔ p.filename = ""

/-! ## Helper lemmas -/

theorem truncQ_neg (q : ℚ) : truncQ (-q) = -truncQ q := by
  simp [truncQ, Rat.neg_num, Rat.neg_den, Int.neg_tdiv]

theorem truncQ_eq_floor (q : ℚ) (h : 0 ≤ q) : truncQ q = ⌊q⌋ := by
  rw [truncQ, Int.tdiv_eq_ediv (Rat.num_nonneg.mpr h) (Int.natCast_nonneg q.den),
    Rat.floor_def]

theorem truncQ_eq_ceil (q : ℚ) (h : q ≤ 0) : truncQ q = ⌈q⌉ := by
  have h1 : truncQ q = -truncQ (-q) := by rw [truncQ_neg, neg_neg]
  rw [h1, truncQ_eq_floor (-q) (by linarith), Int.floor_neg, neg_neg]

theorem truncQ_intCast (z : ℤ) : truncQ (z : ℚ) = z := by
  simp [truncQ, Rat.num_intCast, Rat.den_intCast, Int.tdiv_one]

/-- Range bound: for a validated volume and an in-range 16-bit sample the
truncated product stays in the 16-bit range. -/
theorem truncQ_scale_range (v : ℚ) (s : ℤ) (hv0 : 0 ≤ v) (hv1 : v ≤ 1)
    (hs1 : -32768 ≤ s) (hs2 : s ≤ 32767) :
    -32768 ≤ truncQ (v * s) ∧ truncQ (v * s) ≤ 32767 := by
  rcases le_or_lt 0 s with hs | hs
  · have hsq : (0 : ℚ) ≤ (s : ℚ) := by exact_mod_cast hs
    have h0 : (0 : ℚ) ≤ v * s := mul_nonneg hv0 hsq
    have h2 : v * s ≤ (s : ℚ) := by nlinarith
    rw [truncQ_eq_floor _ h0]
    constructor
    · have := Int.floor_nonneg.mpr h0
      omega
    · have := Int.floor_le_floor h2
      rw [Int.floor_intCast] at this
      omega
  · have hsq : (s : ℚ) ≤ 0 := by exact_mod_cast hs.le
    have h0 : v * s ≤ 0 := mul_nonpos_of_nonneg_of_nonpos hv0 hsq
    have h2 : (s : ℚ) ≤ v * s := by nlinarith
    rw [truncQ_eq_ceil _ h0]
    constructor
    · have := Int.ceil_le_ceil h2
      rw [Int.ceil_intCast] at this
      omega
    · have : ⌈v * s⌉ ≤ (0 : ℤ) := Int.ceil_le.mpr (by exact_mod_cast h0)
      omega

theorem wrap16_eq_self (x : ℤ) (h1 : -32768 ≤ x) (h2 : x ≤ 32767) : wrap16 x = x := by
  rw [wrap16, Int.emod_eq_of_lt (by omega) (by omega)]
  omega

/-- With a validated volume and in-range input, the per-sample scaling is
exactly truncation toward zero of `v * s`, and its result is in range. -/
theorem scaleSample_eq_trunc (v : ℚ) (s : ℤ) (hv0 : 0 ≤ v) (hv1 : v ≤ 1)
    (hs1 : -32768 ≤ s) (hs2 : s ≤ 32767) :
    scaleSample v s = truncQ (v * s) ∧
      -32768 ≤ scaleSample v s ∧ scaleSample v s ≤ 32767 := by
  obtain ⟨h1, h2⟩ := truncQ_scale_range v s hv0 hv1 hs1 hs2
  have he : scaleSample v s = truncQ (v * s) := wrap16_eq_self _ h1 h2
  exact ⟨he, by rw [he]; exact h1, by rw [he]; exact h2⟩

theorem scaleSample_one (s : ℤ) (hs1 : -32768 ≤ s) (hs2 : s ≤ 32767) :
    scaleSample 1 s = s := by
  have := (scaleSample_eq_trunc 1 s zero_le_one le_rfl hs1 hs2).1
  rw [this, one_mul, truncQ_intCast]

theorem scaleSample_zero (s : ℤ) : scaleSample 0 s = 0 := by
  simp [scaleSample, truncQ, wrap16]

/-- Both stop branches always leave no open stream and no open file. -/
theorem stop_clears (p : Player) (r : String) :
    (stop p r).1.audiostream = none ∧ (stop p r).1.filestream = none := by
  by_cases hr : r = "standart" ∨ r = "terminate" <;>
    rcases hA : p.audiostream with _ | h <;> rcases hF : p.filestream with _ | w <;>
      simp [stop, hA, hF, hr]

/-- stop on a quiescent player: state unchanged, and a warning is logged
exactly when the reason is neither `'standart'` nor `'terminate'`. -/
theorem stop_quiescent_aux (p : Player) (r : String)
    (ha : p.audiostream = none) (hf : p.filestream = none) :
    (stop p r).1 = p ∧
      ((stop p r).2.any Event.isWarning = true ↔
        ¬(r = "standart" ∨ r = "terminate")) := by
  by_cases hr : r = "standart" ∨ r = "terminate" <;>
    simp [stop, ha, hf, hr, Event.isWarning]

/-- The looped split read, unfolded: with the wave position in sync with
the player cursor `p` and a request overrunning the end of file, the data
is the tail of the file from `p` followed by `frame_count - (total - p)`
frames re-read from the start, and the new cursor is that remainder. -/
theorem readStep_loop_eq (w : Wave_read) (p n : ℕ)
    (hp : w.pos = p) (hple : p ≤ w.getnframes) (hover : w.getnframes < p + n) :
    readStep w p n true =
      (w.frames.drop p ++ w.frames.take (n - (w.getnframes - p)),
        { handle := w.handle, frames := w.frames,
          pos := min (n - (w.getnframes - p)) w.getnframes },
        n - (w.getnframes - p)) := by
  unfold Wave_read.getnframes at hple hover ⊢
  have hrem : p + n - w.frames.length = n - (w.frames.length - p) := by omega
  have hc : w.frames.length < p + n ∧ true = true := ⟨hover, rfl⟩
  simp only [readStep, Wave_read.readframes, Wave_read.rewind, Wave_read.getnframes,
    if_pos hc, hp, hrem, List.drop_zero, Nat.zero_add]
  have htake : List.take n (List.drop p w.frames) = List.drop p w.frames := by
    apply List.take_of_length_le
    rw [List.length_drop]
    omega
  rw [htake]
  rw [if_pos (show w.frames.length < p + n ∧ True from ⟨hover, trivial⟩)]

/-- The cursor update of `readStep` with looping on is `cursorStep`. -/
theorem readStep_position (w : Wave_read) (p n : ℕ) :
    (readStep w p n true).2.2 = cursorStep w.getnframes n p := by
  unfold readStep cursorStep
  by_cases h : w.getnframes < p + n
  · rw [if_pos ⟨h, rfl⟩, if_pos h]
  · rw [if_neg (fun hc => h hc.1), if_neg h]

/-- `readStep` never changes the frames or the handle of the file. -/
theorem readStep_frames (w : Wave_read) (p n : ℕ) (l : Bool) :
    (readStep w p n l).2.1.frames = w.frames ∧
      (readStep w p n l).2.1.handle = w.handle := by
  simp only [readStep, Wave_read.readframes, Wave_read.rewind]
  split <;> exact ⟨rfl, rfl⟩

/-- The callback with a file loaded, in terms of `readStep`. -/
theorem callback_some_eq (p : Player) (w : Wave_read) (n : ℕ)
    (hw : p.filestream = some w) :
    audio_stream_callback p n =
      ((some (scaleBuffer p.volume (readStep w p.position n p.is_loop).1), paContinue),
        { p with filestream := some (readStep w p.position n p.is_loop).2.1,
                 position := (readStep w p.position n p.is_loop).2.2 }) := by
  unfold audio_stream_callback
  rw [hw]

/-- The non-looping read branch of the callback (lines 93–95), unfolded. -/
theorem readStep_noloop (w : Wave_read) (p n : ℕ) :
    readStep w p n false =
      ((w.frames.drop w.pos).take n,
        { handle := w.handle, frames := w.frames,
          pos := min (w.pos + n) w.frames.length },
        p + n) := by
  simp only [readStep, Wave_read.readframes, Wave_read.getnframes]
  rw [if_neg (by simp)]

/-- One looped callback invocation keeps a file open with the same frames,
keeps looping on, and advances the cursor by `cursorStep`. -/
theorem callback_loop_invariant (p : Player) (w : Wave_read) (n : ℕ)
    (hw : p.filestream = some w) (hl : p.is_loop = true) :
    ∃ w', (audio_stream_callback p n).2.filestream = some w' ∧
      w'.frames = w.frames ∧
      (audio_stream_callback p n).2.is_loop = true ∧
      (audio_stream_callback p n).2.position = cursorStep w.getnframes n p.position := by
  unfold audio_stream_callback
  rw [hw]
  refine ⟨(readStep w p.position n p.is_loop).2.1, rfl, ?_, hl, ?_⟩
  · exact (readStep_frames w p.position n p.is_loop).1
  · rw [hl]
    exact readStep_position w p.position n

/-- Iterating the callback `k` times with looping on from cursor 0 leaves
the cursor at `cursorIter` of the file length. -/
theorem iterCallback_loop (p : Player) (w : Wave_read) (n : ℕ)
    (hw : p.filestream = some w) (hl : p.is_loop = true) (h0 : p.position = 0) :
    ∀ k, ∃ w', (iterCallback p n k).filestream = some w' ∧ w'.frames = w.frames ∧
      (iterCallback p n k).is_loop = true ∧
      (iterCallback p n k).position = cursorIter w.getnframes n k := by
  intro k
  induction k with
  | zero => exact ⟨w, hw, rfl, hl, by rw [show iterCallback p n 0 = p from rfl, h0]; rfl⟩
  | succ k ih =>
    obtain ⟨w1, hw1, hfr1, hl1, hpos1⟩ := ih
    obtain ⟨w2, hw2, hfr2, hl2, hpos2⟩ :=
      callback_loop_invariant (iterCallback p n k) w1 n hw1 hl1
    refine ⟨w2, hw2, hfr2.trans hfr1, hl2, ?_⟩
    have hlen : w1.getnframes = w.getnframes := by
      unfold Wave_read.getnframes
      rw [hfr1]
    show (audio_stream_callback (iterCallback p n k) n).2.position = _
    rw [hpos2, hlen, hpos1]
    rfl

/-- Closed form of the looped cursor: it stays in `[0, total]` and is
congruent to `k * n` modulo `total`. -/
theorem cursorIter_spec (total n : ℕ) (hn2 : n ≤ total) :
    ∀ k, cursorIter total n k ≤ total ∧
      cursorIter total n k % total = (k * n) % total := by
  intro k
  induction k with
  | zero => exact ⟨Nat.zero_le _, by simp [cursorIter]⟩
  | succ k ih =>
    obtain ⟨hle, hmod⟩ := ih
    unfold cursorIter cursorStep
    by_cases h : total < cursorIter total n k + n
    · rw [if_pos h]
      refine ⟨by omega, ?_⟩
      have h1 : (cursorIter total n k + n - total) % total =
          (cursorIter total n k + n) % total := by
        conv_rhs => rw [show cursorIter total n k + n =
          (cursorIter total n k + n - total) + total by omega]
        rw [Nat.add_mod_right]
      rw [h1, Nat.succ_mul, Nat.add_mod (k * n) n, ← hmod, ← Nat.add_mod]
    · rw [if_neg h]
      refine ⟨by omega, ?_⟩
      rw [Nat.succ_mul, Nat.add_mod (k * n) n, ← hmod, ← Nat.add_mod]

/-- The callback never touches the filename and keeps a file open iff one
was open. -/
theorem fileInv_callback (p : Player) (n : ℕ) (h : fileInv p) :
    fileInv (audio_stream_callback p n).2 := by
  unfold fileInv at h ⊢
  rcases hw : p.filestream with _ | w
  · simpa [audio_stream_callback, hw] using h
  · rw [callback_some_eq p w n hw]
    rw [hw] at h
    constructor
    · intro hc
      exact absurd hc (by simp)
    · intro he
      exact absurd (h.mpr he) (by simp)

/-- `load` preserves the invariant, given that the empty path cannot be
opened. -/
theorem fileInv_load (fs : String → Option (List ℤ)) (hfs : fs "" = none)
    (p : Player) (name : String) (h : fileInv p) :
    fileInv (load fs p name).2.1 := by
  unfold fileInv at h ⊢
  rcases hn : fs name with _ | frames
  · simpa [load, hn] using h
  · have hne : name ≠ "" := by
      intro he
      rw [he, hfs] at hn
      exact Option.noConfusion hn
    simp [load, hn, hne]

/-- `stop` preserves the invariant. -/
theorem fileInv_stop (p : Player) (r : String) (h : fileInv p) :
    fileInv (stop p r).1 := by
  unfold fileInv at h ⊢
  by_cases hr : r = "standart" ∨ r = "terminate" <;>
    rcases hA : p.audiostream with _ | a <;> rcases hF : p.filestream with _ | w <;>
      simp [stop, hA, hF, hr] <;> exact h.mp hF

/-- `set_volume` preserves the invariant. -/
theorem fileInv_set_volume (p : Player) (v : ℚ) (h : fileInv p) :
    fileInv (set_volume p v).2.1 := by
  unfold fileInv at h ⊢
  unfold set_volume
  split <;> simpa using h

/-- `set_loop_mode` preserves the invariant. -/
theorem fileInv_set_loop_mode (p : Player) (b : Bool) (h : fileInv p) :
    fileInv (set_loop_mode p b).2 := by
  unfold fileInv at h ⊢
  simpa [set_loop_mode] using h

/-- The callback loop of `play` preserves the invariant. -/
theorem fileInv_foldl (sched : List ℕ) (p : Player) (h : fileInv p) :
    fileInv (sched.foldl (fun q n => (audio_stream_callback q n).2) p) := by
  induction sched generalizing p with
  | nil => exact h
  | cons n t ih => exact ih _ (fileInv_callback p n h)

/-- `playLoop` preserves the invariant. -/
theorem fileInv_playLoop (sched : List ℕ) (p : Player) (h : fileInv p) :
    fileInv (playLoop sched p).1 := by
  unfold playLoop
  apply fileInv_stop
  apply fileInv_foldl
  unfold fileInv at h ⊢
  simpa using h

/-- `play` preserves the invariant (its implicit re-load branch is dead
under the invariant, so no assumption on `fs` is needed). -/
theorem fileInv_play (fs : String → Option (List ℤ))
    (sched : List ℕ) (p : Player) (h : fileInv p) :
    fileInv (play fs sched p).1 := by
  unfold play
  rcases hF : p.filestream with _ | w
  · have hname : p.filename = "" := by
      unfold fileInv at h
      exact h.mp hF
    simpa [hname] using h
  · exact fileInv_playLoop sched p h

/-! ## Claim theorems -/

/-- C1 (amended): with looping enabled and the file position in sync with
the cursor `p` (`0 ≤ p ≤ total_frames`), a callback read of `frame_count`
frames that would advance past `total_frames` returns the (volume-scaled)
frames from `p` up to end of file concatenated with frames re-read from
the start, and the cursor afterwards equals
`frame_count - (total_frames - p)`.  Over any `k` looped callback reads of
`n ≤ total_frames` frames each starting from cursor 0, the cursor stays
`≤ total_frames` and is congruent to `k * n` modulo `total_frames` (when
`k * n` is a positive multiple of `total_frames` it equals `total_frames`
itself, not 0). -/
theorem looped_read_split_and_cursor :
    (∀ (p : Player) (w : Wave_read) (n : ℕ),
      p.filestream = some w → p.is_loop = true → w.pos = p.position →
      p.position ≤ w.getnframes → w.getnframes < p.position + n →
      audio_stream_callback p n =
        ((some (scaleBuffer p.volume (w.frames.drop p.position ++
            w.frames.take (n - (w.getnframes - p.position)))), paContinue),
          { p with
              filestream :=
                some ⟨w.handle, w.frames, min (n - (w.getnframes - p.position)) w.getnframes⟩,
              position := n - (w.getnframes - p.position) })) ∧
    (∀ (p : Player) (w : Wave_read) (n k : ℕ),
      p.filestream = some w → p.is_loop = true → p.position = 0 →
      n ≤ w.getnframes →
      (iterCallback p n k).position ≤ w.getnframes ∧
      (iterCallback p n k).position % w.getnframes = (k * n) % w.getnframes) := by
  constructor
  · intro p w n hw hl hp hple hover
    rw [callback_some_eq p w n hw, hl, readStep_loop_eq w p.position n hp hple hover]
  · intro p w n k hw hl h0 hn2
    obtain ⟨w', hw', hfr, hl', hpos⟩ := iterCallback_loop p w n hw hl h0 k
    rw [hpos]
    exact cursorIter_spec w.getnframes n hn2 k

/-- C1 witness: the split-read equation at a concrete overrunning looped
read (4-frame file, cursor 3, 2 frames requested), and the cursor bound
after 3 looped reads of 5 frames against the 10-frame file. -/
theorem looped_read_split_and_cursor_witness :
    (audio_stream_callback exWrap 2 =
      ((some (scaleBuffer exWrap.volume (exWave.frames.drop exWrap.position ++
          exWave.frames.take (2 - (exWave.getnframes - exWrap.position)))), paContinue),
        { exWrap with
            filestream :=
              some ⟨exWave.handle, exWave.frames,
                min (2 - (exWave.getnframes - exWrap.position)) exWave.getnframes⟩,
            position := 2 - (exWave.getnframes - exWrap.position) })) ∧
    ((iterCallback exLoadedLoop 5 3).position ≤ 10 ∧
      (iterCallback exLoadedLoop 5 3).position % 10 = (3 * 5) % 10) :=
  ⟨looped_read_split_and_cursor.1 exWrap exWave 2 rfl rfl rfl (by decide) (by decide),
   looped_read_split_and_cursor.2 exLoadedLoop
     { handle := 0, frames := [11, 12, 13, 14, 15, 16, 17, 18, 19, 20], pos := 0 }
     5 3 rfl rfl rfl (by decide)⟩

/-- C1 counterexample: after 2 looped callback reads of 5 frames against
the 10-frame file the cursor is 10, while `(2*5) mod 10 = 0`: the claimed
identity `cursor = (k*n) mod total_frames` fails whenever `k*n` reaches a
positive multiple of `total_frames`. -/
theorem looped_cursor_mod_counterexample :
    (iterCallback exLoadedLoop 5 2).position = 10 ∧ (2 * 5) % 10 = 0 ∧
      (iterCallback exLoadedLoop 5 2).position ≠ (2 * 5) % 10 :=
  ⟨by decide, by decide, by decide⟩

/-- C3 (amended): with looping disabled and fewer than `frame_count`
frames left in the file, the callback returns the short buffer together
with the `paContinue` flag — it does not return a distinct end-of-stream
flag.  (The pyaudio host API ends the stream when a callback delivers
fewer than `frame_count` frames, so the short buffer itself is the
end-of-stream signal.) -/
theorem short_read_returns_continue (p : Player) (w : Wave_read) (n : ℕ)
    (hw : p.filestream = some w) (hl : p.is_loop = false)
    (hshort : w.frames.length < w.pos + n) (hn : 0 < n) :
    (audio_stream_callback p n).1.2 = paContinue ∧
      ∃ buf, (audio_stream_callback p n).1.1 = some buf ∧ buf.length < n := by
  rw [callback_some_eq p w n hw, hl, readStep_noloop w p.position n]
  refine ⟨rfl, _, rfl, ?_⟩
  rw [scaleBuffer, List.length_map, List.length_take, List.length_drop]
  omega

/-- C3 witness: the amended theorem at a non-looping read of 20 frames
against the freshly loaded 10-frame file. -/
theorem short_read_returns_continue_witness :
    (audio_stream_callback exLoaded 20).1.2 = paContinue ∧
      ∃ buf, (audio_stream_callback exLoaded 20).1.1 = some buf ∧ buf.length < 20 :=
  short_read_returns_continue exLoaded
    { handle := 0, frames := [11, 12, 13, 14, 15, 16, 17, 18, 19, 20], pos := 0 }
    20 rfl rfl (by decide) (by decide)

/-- C3 counterexample: at a non-looping short read (10 frames remain, 20
requested) the returned flag is `paContinue` — the continue indication —
and not `paComplete`; the returned buffer holds the 10 remaining frames. -/
theorem short_read_flag_counterexample :
    (audio_stream_callback exLoaded 20).1.2 = paContinue ∧
      paContinue ≠ paComplete ∧
      (audio_stream_callback exLoaded 20).1.1.map List.length = some 10 ∧
      (10 : ℕ) < 20 :=
  ⟨by decide, by decide, by decide, by decide⟩

/-- C4 (code bug): one non-looping callback read of 20 frames on the
freshly loaded 10-frame file leaves `_position = 20`, violating the
invariant `position ≤ total_frames` (= 10): line 95 adds `frame_count`
even though only 10 frames were read.  The wave module's own read
position is correctly clamped to 10. -/
theorem position_exceeds_total_frames_bug :
    (audio_stream_callback exLoaded 20).2.position = 20 ∧
      (audio_stream_callback exLoaded 20).2.filestream =
        some { handle := 0, frames := [11, 12, 13, 14, 15, 16, 17, 18, 19, 20],
               pos := 10 } ∧
      ¬((audio_stream_callback exLoaded 20).2.position ≤
        ({ handle := 0, frames := [11, 12, 13, 14, 15, 16, 17, 18, 19, 20],
           pos := 10 } : Wave_read).getnframes) :=
  ⟨by decide, by decide, by decide⟩

/-- C5 (code bug): `load` does not reset the playback cursor.  After the
cursor advanced to 7, a successful `load('b.wav')` returns `True` but
leaves `_position = 7` instead of 0. -/
theorem load_does_not_reset_position_bug :
    (load exFS (audio_stream_callback exLoaded 7).2 "b.wav").1 = true ∧
      (load exFS (audio_stream_callback exLoaded 7).2 "b.wav").2.1.position = 7 ∧
      (7 : ℕ) ≠ 0 :=
  ⟨by decide, by decide, by decide⟩

/-- C9 (code bug): a second successful `load` overwrites `_filestream`
without closing the previous wave handle.  Over the run
`load('a.wav'); load('b.wav'); stop('terminate')` the handle opened first
(id 0) is opened once and never closed; only handle 1 is closed. -/
theorem load_leaks_previous_file_handle_bug :
    (load exFS init "a.wav").2.2 = [Event.openedFile 0] ∧
      (load exFS exLoaded "b.wav").2.2 = [Event.openedFile 1] ∧
      (stop (load exFS exLoaded "b.wav").2.1 "terminate").2 = [Event.closedFile 1] ∧
      (stop (load exFS exLoaded "b.wav").2.1 "terminate").1.filestream = none ∧
      Event.closedFile 0 ∉
        ((load exFS init "a.wav").2.2 ++ (load exFS exLoaded "b.wav").2.2 ++
          (stop (load exFS exLoaded "b.wav").2.1 "terminate").2) :=
  ⟨by decide, by decide, by decide, by decide, by decide⟩

/-- C2 counterexample: the volume-scaling step is not rounding.  At volume
`1/2` the sample `3` is scaled to `1` (numpy `astype` truncation), while
`round(3 * 0.5) = 2`, so the buffer differs from the claimed one. -/
theorem volume_scale_round_counterexample :
    scaleBuffer (1/2) [3] = [1] ∧ round ((1/2 : ℚ) * 3) = 2 ∧
      scaleBuffer (1/2) [3] ≠ [round ((1/2 : ℚ) * 3)] := by
  have hs : scaleSample (1/2) 3 = truncQ ((1/2 : ℚ) * ((3 : ℤ) : ℚ)) :=
    (scaleSample_eq_trunc (1/2) 3 (by norm_num) (by norm_num)
      (by decide) (by decide)).1
  have ht : truncQ ((1/2 : ℚ) * ((3 : ℤ) : ℚ)) = 1 := by
    have hq : ((1/2 : ℚ) * ((3 : ℤ) : ℚ)) = 3/2 := by push_cast; ring
    rw [hq, truncQ_eq_floor _ (by norm_num)]
    rw [Int.floor_eq_iff]
    norm_num
  have h1 : scaleBuffer (1/2) [3] = [1] := by
    simp only [scaleBuffer, List.map_cons, List.map_nil]
    rw [hs, ht]
  have h2 : round ((1/2 : ℚ) * 3) = 2 := by norm_num [round_eq]
  refine ⟨h1, h2, ?_⟩
  rw [h1, h2]
  decide

/-- C2 (amended): for a volume in `[0, 1]` and a buffer of in-range signed
16-bit samples, the volume-scaling step preserves the length and maps each
sample to `sample * volume` truncated toward zero (numpy `astype`
semantics, not rounding); every result is again in the signed 16-bit
range, so no overflow wraparound occurs. -/
theorem volume_scale_truncates (buf : List ℤ) (v : ℚ) (hv0 : 0 ≤ v) (hv1 : v ≤ 1)
    (hbuf : ∀ s ∈ buf, -32768 ≤ s ∧ s ≤ 32767) :
    (scaleBuffer v buf).length = buf.length ∧
      scaleBuffer v buf = buf.map (fun s : ℤ => truncQ (v * (s : ℚ))) ∧
      ∀ t ∈ scaleBuffer v buf, -32768 ≤ t ∧ t ≤ 32767 := by
  refine ⟨List.length_map _ _, ?_, ?_⟩
  · exact List.map_congr_left fun s hs =>
      (scaleSample_eq_trunc v s hv0 hv1 (hbuf s hs).1 (hbuf s hs).2).1
  · intro t ht
    rw [scaleBuffer, List.mem_map] at ht
    obtain ⟨s, hs, rfl⟩ := ht
    exact (scaleSample_eq_trunc v s hv0 hv1 (hbuf s hs).1 (hbuf s hs).2).2

/-- C2 witness: the amended theorem evaluated on the buffer `[5, -5]` at
volume `1/2`. -/
theorem volume_scale_truncates_witness :
    (scaleBuffer (1/2) [5, -5]).length = ([5, -5] : List ℤ).length ∧
      scaleBuffer (1/2) [5, -5] =
        ([5, -5] : List ℤ).map (fun s : ℤ => truncQ ((1/2) * (s : ℚ))) ∧
      ∀ t ∈ scaleBuffer (1/2) [5, -5], -32768 ≤ t ∧ t ≤ 32767 :=
  volume_scale_truncates [5, -5] (1/2) (by norm_num) (by norm_num) (by decide)

/-- C6: `set_volume v` with `0 ≤ v ≤ 1` stores `v` and returns it, leaving
every other field of the player untouched; with `v` outside `[0, 1]` it
returns the sentinel `-1`, logs a warning, and changes nothing at all. -/
theorem set_volume_spec (p : Player) (v : ℚ) :
    (0 ≤ v ∧ v ≤ 1 → set_volume p v = (v, { p with volume := v }, [])) ∧
      (¬(0 ≤ v ∧ v ≤ 1) →
        set_volume p v = (-1, p, [Event.logWarnVolumeRange])) := by
  constructor <;> intro h <;> simp [set_volume, h]

/-- C6 witness: `set_volume` on a fresh player accepts `1/2` and rejects
`11/10` (= the spec's 1.1), leaving the player unchanged. -/
theorem set_volume_spec_witness :
    set_volume init (1/2) = (1/2, { init with volume := 1/2 }, []) ∧
      set_volume init (11/10) = (-1, init, [Event.logWarnVolumeRange]) :=
  ⟨(set_volume_spec init (1/2)).1 (by norm_num),
   (set_volume_spec init (11/10)).2 (by norm_num)⟩

/-- C7: stop on a quiescent player (no active stream, no loaded file) is
fault-free and leaves the state unchanged; it logs a warning exactly when
the reason is neither `'standart'` nor `'terminate'`; and after any
`stop()` a second consecutive `stop()` logs a warning and returns with the
state unchanged, without fault. -/
theorem stop_quiescent_spec :
    (∀ (p : Player) (r : String), p.audiostream = none → p.filestream = none →
      (stop p r).1 = p ∧
        ((stop p r).2.any Event.isWarning = true ↔
          ¬(r = "standart" ∨ r = "terminate"))) ∧
    ∀ q : Player, (stop (stop q "").1 "").2.any Event.isWarning = true ∧
      (stop (stop q "").1 "").1 = (stop q "").1 := by
  refine ⟨fun p r ha hf => stop_quiescent_aux p r ha hf, fun q => ?_⟩
  obtain ⟨ha, hf⟩ := stop_clears q ""
  obtain ⟨h1, h2⟩ := stop_quiescent_aux (stop q "").1 "" ha hf
  exact ⟨h2.mpr (by decide), h1⟩

/-- C7 witness: an explicit `stop()` on a fresh player (nothing playing,
nothing loaded) logs a warning. -/
theorem stop_quiescent_spec_witness :
    (stop init "").2.any Event.isWarning = true :=
  ((stop_quiescent_spec.1 init "" rfl rfl).2).mpr (by decide)

/-- At volume 1 the scaling step is the identity on in-range samples. -/
theorem scaleBuffer_one (buf : List ℤ) :
    (∀ s ∈ buf, -32768 ≤ s ∧ s ≤ 32767) → scaleBuffer 1 buf = buf := by
  induction buf with
  | nil => intro _; rfl
  | cons s t ih =>
    intro hbuf
    have hh := hbuf s (List.mem_cons_self s t)
    have hm : ∀ x ∈ t, -32768 ≤ x ∧ x ≤ 32767 := fun x hx =>
      hbuf x (List.mem_cons_of_mem s hx)
    simp only [scaleBuffer, List.map_cons] at ih ⊢
    rw [scaleSample_one s hh.1 hh.2, ih hm]

/-- At volume 0 the scaling step zeroes every sample. -/
theorem scaleBuffer_zero (buf : List ℤ) :
    scaleBuffer 0 buf = List.replicate buf.length 0 := by
  induction buf with
  | nil => rfl
  | cons s t ih =>
    simp only [scaleBuffer, List.map_cons, List.length_cons,
      List.replicate_succ] at ih ⊢
    rw [scaleSample_zero, ih]

/-- C8: scaling a buffer of in-range 16-bit samples at volume 1.0 returns
the buffer unchanged (bit-identical); at volume 0.0 it returns a buffer of
the same length with every sample zero. -/
theorem volume_scale_identity_and_zero (buf : List ℤ)
    (hbuf : ∀ s ∈ buf, -32768 ≤ s ∧ s ≤ 32767) :
    scaleBuffer 1 buf = buf ∧
      scaleBuffer 0 buf = List.replicate buf.length 0 ∧
      (scaleBuffer 0 buf).length = buf.length :=
  ⟨scaleBuffer_one buf hbuf, scaleBuffer_zero buf, List.length_map _ _⟩

/-- C8 witness: the theorem evaluated on the buffer `[7, -9, 32767, -32768]`. -/
theorem volume_scale_identity_and_zero_witness :
    scaleBuffer 1 [7, -9, 32767, -32768] = [7, -9, 32767, -32768] ∧
      scaleBuffer 0 [7, -9, 32767, -32768] =
        List.replicate ([7, -9, 32767, -32768] : List ℤ).length 0 ∧
      (scaleBuffer 0 [7, -9, 32767, -32768]).length =
        ([7, -9, 32767, -32768] : List ℤ).length :=
  volume_scale_identity_and_zero [7, -9, 32767, -32768] (by decide)

/-- C10: over any filesystem on which the empty path cannot be opened, in
every state reachable through the public operations and callback
invocations, the file stream is open exactly when the remembered filename
is non-empty; consequently the guard of play's implicit re-load branch
(no open file stream but a non-empty remembered filename) never holds. -/
theorem filestream_iff_filename_invariant (fs : String → Option (List ℤ))
    (hfs : fs "" = none) (p : Player) (hr : Reachable fs p) :
    (p.filestream = none ↔ p.filename = "") ∧
      ¬(p.filestream = none ∧ p.filename ≠ "") := by
  have hinv : fileInv p := by
    induction hr with
    | init => simp [fileInv, init]
    | step hp hs ih =>
        cases hs with
        | load name => exact fileInv_load fs hfs _ _ ih
        | play sched => exact fileInv_play fs _ _ ih
        | stop req => exact fileInv_stop _ _ ih
        | set_volume v => exact fileInv_set_volume _ _ ih
        | set_loop_mode b => exact fileInv_set_loop_mode _ _ ih
        | callback n => exact fileInv_callback _ _ ih
  exact ⟨hinv, fun hc => hc.2 (hinv.mp hc.1)⟩

/-- C10 witness: the invariant applied in the initial state over the empty
filesystem. -/
theorem filestream_iff_filename_invariant_witness :
    ((init.filestream = none ↔ init.filename = "") ∧
      ¬(init.filestream = none ∧ init.filename ≠ "")) :=
  filestream_iff_filename_invariant (fun _ => none) rfl init Reachable.init

end PiWAV
